import Mathlib

/-!
# withinLi: fixed-radius near-neighbour search under the L-infinity distance

Shallow embedding of `+ant/+mex/src/withinLi.cpp` (functions `copyvec` and
`mexFunction`) and proofs of its contract.

Modelling conventions.

* `real_t` (declared in the `jmx` header) is a parameter: the scan uses the literal `0`,
  the subtraction, `std::abs` and `<`, collected in the class `RealT`.  Two instances are
  given: the IEEE-754 binary64 arithmetic `Double` (round to nearest, ties to even, with
  NaN and infinities), which is the arithmetic of the MATLAB matrices the program works
  on, and the exact arithmetic of a linearly ordered ring (`ℤ`, `ℚ`, `ℝ`, ...).
* `index_t` is `Nat`.  The only arithmetic on indices is `r + 1` with `r < nr` and the
  loop increments, all bounded by a value that already is an `index_t`, so no wrap-around
  can occur.
* `std::vector<index_t>` is `List Nat`; `push_back` appends at the end, `clear` gives `[]`.
* The `jmx` header is not part of the sources.  A matrix is taken as its two public size
  fields `nr`, `nc` and its element accessor `operator()(r,c)`; a cell array of index
  vectors is a `List (List Nat)`.  A failing `JMX_ASSERT` aborts the call with its message.
* Every element access is checked: an access outside the bounds (undefined behaviour in
  C++) is the error `MexError.indexOutOfRange`.
-/

namespace WithinLi

/-- Ways in which a call of `mexFunction` can abort. -/
inductive MexError where
  /-- `JMX_ASSERT( Qry.nc == nd, "Input size mismatch" )` failed. -/
  | inputSizeMismatch
  /-- `JMX_ASSERT( absdiff > 0, "Radius should be positive." )` failed. -/
  | radiusNotPositive
  /-- An element access outside the bounds of a matrix, vector or cell. -/
  | indexOutOfRange
  deriving DecidableEq

/-- Dense numeric matrix as returned by `args.getmat`: `nr` rows, `nc` columns and the
element accessor `operator()(r,c)`, which is meaningful for `r < nr` and `c < nc`. -/
structure Matrix (α : Type) where
  nr : Nat
  nc : Nat
  elem : Nat → Nat → α

/-- Checked element access `M(r,c)`. -/
def Matrix.get {α : Type} (M : Matrix α) (r c : Nat) : Except MexError α :=
  if r < M.nr ∧ c < M.nc then .ok (M.elem r c) else .error .indexOutOfRange

/-- Matrix given by the list of its rows, with `nc` columns. -/
def Matrix.ofRows {α : Type} [Zero α] (nc : Nat) (rows : List (List α)) : Matrix α :=
  { nr := rows.length, nc := nc, elem := fun r c => (rows.getD r []).getD c 0 }

/-- The arithmetic of `real_t` that `mexFunction` uses: the literal `0`, `a - b`,
`std::abs(a)` and the comparison `a < b`. -/
class RealT (α : Type) where
  zero : α
  sub : α → α → α
  abs : α → α
  lt : α → α → Bool

/-- Exact arithmetic: a linearly ordered ring with its own operations. -/
instance exactRealT {α : Type} [LinearOrderedRing α] : RealT α where
  zero := 0
  sub a b := a - b
  abs a := |a|
  lt a b := decide (a < b)

/-- IEEE-754 binary64 value: NaN, an infinity with its sign, or the finite value
`(-1)^neg * m * 2^e`.  The doubles proper are the finite values with `m < 2^53` and
`-1074 ≤ e ≤ 971`, written with `2^52 ≤ m` unless `e = -1074`. -/
inductive Double where
  | nan
  | inf (neg : Bool)
  | fin (neg : Bool) (m : Nat) (e : Int)
  deriving DecidableEq

/-- Number of binary digits of `m`, computed with at most `fuel` halvings. -/
def Double.bitLengthAux : Nat → Nat → Nat
  | 0, _ => 0
  | fuel + 1, m => if m = 0 then 0 else Double.bitLengthAux fuel (m / 2) + 1

/-- Number of binary digits of `m` (`0` for `m = 0`). -/
def Double.bitLength (m : Nat) : Nat := Double.bitLengthAux m m

/-- Rounding of the exact value `(-1)^neg * m * 2^e` to binary64: to the nearest double,
ties to the even significand, gradual underflow below `2^-1022`, overflow to infinity. -/
def Double.round (neg : Bool) (m : Nat) (e : Int) : Double :=
  let e2 : Int := max (e + (Double.bitLength m : Int) - 53) (-1074)
  let q : Nat :=
    if e2 ≤ e then m * 2 ^ (e - e2).toNat
    else
      let s := (e2 - e).toNat
      let q := m / 2 ^ s
      let r := m % 2 ^ s
      let half := 2 ^ (s - 1)
      if half < r ∨ (r = half ∧ q % 2 = 1) then q + 1 else q
  if q = 0 then .fin neg 0 (-1074)
  else if q = 2 ^ 53 then
    (if e2 + 1 > 971 then .inf neg else .fin neg (2 ^ 52) (e2 + 1))
  else if e2 > 971 then .inf neg
  else .fin neg q e2

/-- The double `+0`, value of the literal `0`. -/
def Double.zero : Double := .fin false 0 (-1074)

/-- Conversion of an integer to `double`. -/
def Double.ofInt (n : Int) : Double := Double.round (decide (n < 0)) n.natAbs 0

/-- The integer `k` with `(-1)^neg * m * 2^e = k * 2^e0`, for `e0 ≤ e`. -/
def Double.scaled (neg : Bool) (m : Nat) (e e0 : Int) : Int :=
  (if neg then -1 else 1) * ((m * 2 ^ (e - e0).toNat : Nat) : Int)

/-- The binary64 subtraction `a - b`: the exact difference, rounded. -/
def Double.sub : Double → Double → Double
  | .nan, _ => .nan
  | _, .nan => .nan
  | .inf s, .inf t => if s = t then .nan else .inf s
  | .inf s, .fin _ _ _ => .inf s
  | .fin _ _ _, .inf t => .inf (!t)
  | .fin s m e, .fin t n f =>
    let e0 := min e f
    let d := Double.scaled s m e e0 - Double.scaled t n f e0
    if d = 0 then .fin (s && !t) 0 (-1074) else Double.round (decide (d < 0)) d.natAbs e0

/-- The function `std::abs` on `double`: clears the sign. -/
def Double.abs : Double → Double
  | .nan => .nan
  | .inf _ => .inf false
  | .fin _ m e => .fin false m e

/-- The binary64 comparison `a < b`, false when an operand is NaN. -/
def Double.lt : Double → Double → Bool
  | .nan, _ => false
  | _, .nan => false
  | .inf s, .inf t => s && !t
  | .inf s, .fin _ _ _ => s
  | .fin _ _ _, .inf t => !t
  | .fin s m e, .fin t n f =>
    let e0 := min e f
    decide (Double.scaled s m e e0 < Double.scaled t n f e0)

/-- The binary64 comparison `a == b`: false when an operand is NaN, true for `+0` and
`-0`. -/
def Double.eq : Double → Double → Bool
  | .nan, _ => false
  | _, .nan => false
  | .inf s, .inf t => s == t
  | .inf _, .fin _ _ _ => false
  | .fin _ _ _, .inf _ => false
  | .fin s m e, .fin t n f =>
    let e0 := min e f
    decide (Double.scaled s m e e0 = Double.scaled t n f e0)

/-- Whether a double is finite (neither NaN nor an infinity). -/
def Double.isFinite : Double → Bool
  | .fin _ _ _ => true
  | _ => false

/-- The rational number a finite double stands for. -/
def Double.toRat : Double → Option ℚ
  | .fin s m e => some ((if s then -1 else 1) * (m : ℚ) * (2 : ℚ) ^ e)
  | _ => none

/-- Binary64 arithmetic as the arithmetic of `real_t`. -/
instance doubleRealT : RealT Double where
  zero := Double.zero
  sub := Double.sub
  abs := Double.abs
  lt := Double.lt

instance : Zero Double := ⟨Double.zero⟩

/-- The loop of `copyvec`: `for ( k = 0; k < source.size(); ++k ) target[k] = source[k];`
with both accesses checked. Returns the final contents of `target`. -/
def copyvec (target source : List Nat) : Except MexError (List Nat) :=
  (List.range source.length).foldlM
    (fun t k =>
      match source[k]? with
      | some v => if k < t.length then .ok (t.set k v) else .error .indexOutOfRange
      | none => .error .indexOutOfRange)
    target

/-- The call `ind.mkvec( p, len )`: a new zero-filled vector of length `len`, to be stored in
cell `p` of `ind`; fails when `ind` has no cell `p`. -/
def mkvec (ind : List (List Nat)) (p len : Nat) : Except MexError (List Nat) :=
  if p < ind.length then .ok (List.replicate len 0) else .error .indexOutOfRange

/-- The column loop
`for ( c=0; c < nd && std::abs(Qry(p,c) - Ref(r,c)) < absdiff; c++ ) {}`,
started at column `c` and allowed at most `fuel` iterations; returns the final value of
`c`.  The condition is evaluated left to right, so the matrices are read only when
`c < nd`. -/
def colLoop {α : Type} [RealT α] (Qry Ref : Matrix α) (absdiff : α)
    (nd p r : Nat) : Nat → Nat → Except MexError Nat
  | 0, c => .ok c
  | fuel + 1, c =>
    if c < nd then
      match Qry.get p c, Ref.get r c with
      | .ok q, .ok x =>
        if RealT.lt (RealT.abs (RealT.sub q x)) absdiff then
          colLoop Qry Ref absdiff nd p r fuel (c + 1)
        else .ok c
      | .error e, _ => .error e
      | _, .error e => .error e
    else .ok c

/-- Body of the loop over the reference rows (source lines 59-66) for row `r`:
run the column loop and push `r + 1` on `tmp` when it ran through all `nd` columns. -/
def rowStep {α : Type} [RealT α] (Qry Ref : Matrix α) (absdiff : α)
    (nd p : Nat) (tmp : List Nat) (r : Nat) : Except MexError (List Nat) :=
  match colLoop Qry Ref absdiff nd p r nd 0 with
  | .ok c => if c = nd then .ok (tmp ++ [r + 1]) else .ok tmp
  | .error e => .error e

/-- The loop `for ( r = 0; r < nr; r++ ) { ... }` acting on the buffer `tmp`. -/
def rowLoop {α : Type} [RealT α] (Qry Ref : Matrix α) (absdiff : α)
    (nd nr p : Nat) (tmp : List Nat) : Except MexError (List Nat) :=
  (List.range nr).foldlM (rowStep Qry Ref absdiff nd p) tmp

/-- Body of the loop over the query rows (source lines 57-69) for row `p`.  The state is
the output cell `ind` together with the buffer `tmp` shared by all iterations. -/
def queryStep {α : Type} [RealT α] (Qry Ref : Matrix α) (absdiff : α)
    (nd nr : Nat) (st : List (List Nat) × List Nat) (p : Nat) :
    Except MexError (List (List Nat) × List Nat) :=
  match rowLoop Qry Ref absdiff nd nr p [] with      -- tmp.clear(); for ( r ... )
  | .error e => .error e
  | .ok tmp =>
    match mkvec st.1 p tmp.length with               -- auto ind_p = ind.mkvec( p, tmp.size() )
    | .error e => .error e
    | .ok ind_p =>
      match copyvec ind_p tmp with                   -- copyvec(ind_p, tmp)
      | .error e => .error e
      | .ok v => .ok (st.1.set p v, tmp)

/-- The function `mexFunction` after argument parsing: `Ref = args.getmat(0)`,
`Qry = args.getmat(1)`, `absdiff = args.getnum(2)`.  Returns the contents of the output
cell `ind`, or the error with which the call aborted. -/
def mexFunction {α : Type} [RealT α] (Ref Qry : Matrix α) (absdiff : α) :
    Except MexError (List (List Nat)) :=
  let nd := Ref.nc
  let nr := Ref.nr
  let nq := Qry.nr
  if Qry.nc = nd then
    if RealT.lt RealT.zero absdiff then              -- absdiff > 0
      match (List.range nq).foldlM (queryStep Qry Ref absdiff nd nr)
          (List.replicate nq [], []) with            -- args.mkcell(0, nq); tmp
      | .ok st => .ok st.1
      | .error e => .error e
    else .error .radiusNotPositive
  else .error .inputSizeMismatch

/-- The test of source line 62 for query row `p`, reference row `r` and column `c`, as
the program computes it: `std::abs(Qry(p,c) - Ref(r,c)) < absdiff`. -/
def passes {α : Type} [RealT α] (Qry Ref : Matrix α) (absdiff : α) (p r c : Nat) : Bool :=
  RealT.lt (RealT.abs (RealT.sub (Qry.elem p c) (Ref.elem r c))) absdiff

/-- The match predicate: every one of the `d` coordinates of reference row `i` passes the
test against query row `j`. -/
def within {α : Type} [RealT α] (Ref Qry : Matrix α) (radius : α) (d j i : Nat) : Prop :=
  ∀ c, c < d → passes Qry Ref radius j i c = true

instance {α : Type} [RealT α] (Ref Qry : Matrix α) (radius : α) (d j i : Nat) :
    Decidable (within Ref Qry radius d j i) :=
  inferInstanceAs (Decidable (∀ c, c < d → passes Qry Ref radius j i c = true))

/-- The condition of the specification for one coordinate, read on the real numbers the
doubles stand for: the three values are finite and `|q - x| < r` holds exactly. -/
def exactPasses (q x r : Double) : Bool :=
  match q.toRat, x.toRat, r.toRat with
  | some a, some b, some c => decide (|a - b| < c)
  | _, _, _ => false

/-- The reference definition of the 0-based result for query row `j`: the reference rows
`0, ..., n-1` that satisfy the match predicate, in increasing order. -/
def specList {α : Type} [RealT α] (Ref Qry : Matrix α) (radius : α)
    (j : Nat) : List Nat :=
  (List.range Ref.nr).filter (fun i => decide (within Ref Qry radius Ref.nc j i))

/-- The list written for query row `j`: the reference definition with `+1` on every
element. -/
def emitted {α : Type} [RealT α] (Ref Qry : Matrix α) (radius : α)
    (j : Nat) : List Nat :=
  (specList Ref Qry radius j).map (· + 1)

/-- Reference matrix of scenario 1. -/
def ref1 : Matrix ℤ := Matrix.ofRows 2 [[0, 0], [5, 5], [1, 1]]

/-- Query matrix of scenario 1. -/
def qry1 : Matrix ℤ := Matrix.ofRows 2 [[0, 0]]

/-- Reference matrix of scenario 2: the single point `0`. -/
def ref2 : Matrix ℤ := Matrix.ofRows 1 [[0]]

/-- Query matrix of scenario 2: the points `0` and `10`. -/
def qry2 : Matrix ℤ := Matrix.ofRows 1 [[0], [10]]

/-- Reference matrix of scenario 3: the single point `3`. -/
def ref3 : Matrix ℤ := Matrix.ofRows 1 [[3]]

/-- Query matrix of scenario 3: the single point `0`. -/
def qry3 : Matrix ℤ := Matrix.ofRows 1 [[0]]

/-- Reference matrix of the invalid-input scenario: one point with 3 coordinates. -/
def refWide : Matrix ℤ := Matrix.ofRows 3 [[0, 0, 0]]

/-- Query matrix of the invalid-input scenario: one point with 2 coordinates. -/
def qryNarrow : Matrix ℤ := Matrix.ofRows 2 [[0, 0]]

/-- Query matrix with the two points `(0,0)` and `(1,1)`. -/
def qryTwo : Matrix ℤ := Matrix.ofRows 2 [[0, 0], [1, 1]]

/-- Matrix without rows and with 2 columns. -/
def noRows : Matrix ℤ := Matrix.ofRows 2 []

/-- Query matrix with the two points `(5,5)` and `(0,0)`, in this order. -/
def qrySwapped : Matrix ℤ := Matrix.ofRows 2 [[5, 5], [0, 0]]

/-- Reference matrix with three points of dimension zero. -/
def refZeroDim : Matrix ℤ := Matrix.ofRows 0 [[], [], []]

/-- Query matrix with two points of dimension zero. -/
def qryZeroDim : Matrix ℤ := Matrix.ofRows 0 [[], []]

/-- Reference matrix of scenario 1 in doubles. -/
def ref1D : Matrix Double :=
  Matrix.ofRows 2 [[.ofInt 0, .ofInt 0], [.ofInt 5, .ofInt 5], [.ofInt 1, .ofInt 1]]

/-- Query matrix of scenario 1 in doubles. -/
def qry1D : Matrix Double := Matrix.ofRows 2 [[.ofInt 0, .ofInt 0]]

/-- The single point `1`, as a matrix of doubles. -/
def matOne : Matrix Double := Matrix.ofRows 1 [[.ofInt 1]]

/-- The single point `1e16 = 10^16`, as a matrix of doubles. -/
def matBig : Matrix Double := Matrix.ofRows 1 [[.ofInt (10 ^ 16)]]

/-- The double `1e16 = 10^16`. -/
def radBig : Double := .ofInt (10 ^ 16)

/-- The single point `2^-60`, as a matrix of doubles. -/
def matTiny : Matrix Double := Matrix.ofRows 1 [[.fin false (2 ^ 52) (-112)]]

/-- The single point `+inf`, as a matrix of doubles. -/
def matInf : Matrix Double := Matrix.ofRows 1 [[.inf false]]

/-! ## The column loop -/

/-- Result of the column loop under in-bounds rows: it returns a column `k` between the
start column and `nd` such that all columns before `k` pass the test and column `k`, if it
is a column at all, fails it. -/
theorem colLoop_spec {α : Type} [RealT α] (Qry Ref : Matrix α) (absdiff : α)
    (nd p r : Nat) (hp : p < Qry.nr) (hr : r < Ref.nr) (hq : Qry.nc = nd) (hn : Ref.nc = nd)
    (fuel c : Nat) (hc : c ≤ nd) (hf : nd ≤ c + fuel) :
    ∃ k, colLoop Qry Ref absdiff nd p r fuel c = .ok k ∧ c ≤ k ∧ k ≤ nd ∧
      (∀ m, c ≤ m → m < k → passes Qry Ref absdiff p r m = true) ∧
      (k < nd → ¬ passes Qry Ref absdiff p r k = true) := by
  induction fuel generalizing c with
  | zero =>
    have : c = nd := by omega
    exact ⟨c, rfl, le_refl _, hc, fun m h1 h2 => by omega, fun h => by omega⟩
  | succ fuel ih =>
    by_cases hlt : c < nd
    · have hQ : Qry.get p c = .ok (Qry.elem p c) := by
        simp [Matrix.get, hp, hq, hlt]
      have hR : Ref.get r c = .ok (Ref.elem r c) := by
        simp [Matrix.get, hr, hn, hlt]
      by_cases hclose :
          RealT.lt (RealT.abs (RealT.sub (Qry.elem p c) (Ref.elem r c))) absdiff = true
      · obtain ⟨k, hk, h1, h2, h3, h4⟩ := ih (c + 1) hlt (by omega)
        refine ⟨k, ?_, by omega, h2, ?_, h4⟩
        · simp only [colLoop, hlt, if_true, hQ, hR, hclose]
          exact hk
        · intro m hm1 hm2
          by_cases hmc : m = c
          · subst hmc; exact hclose
          · exact h3 m (by omega) hm2
      · refine ⟨c, ?_, le_refl _, hc, fun m h1 h2 => by omega, fun _ => hclose⟩
        simp only [colLoop, hlt, if_true, hQ, hR, hclose, Bool.false_eq_true, if_false]
    · have : c = nd := by omega
      refine ⟨c, ?_, le_refl _, hc, fun m h1 h2 => by omega, fun h => by omega⟩
      simp only [colLoop, hlt, if_false]

/-- The column loop of `mexFunction` runs through all columns exactly when the match
predicate holds. -/
theorem colLoop_eq_nd_iff {α : Type} [RealT α] (Qry Ref : Matrix α) (absdiff : α)
    (nd p r : Nat) (hp : p < Qry.nr) (hr : r < Ref.nr) (hq : Qry.nc = nd) (hn : Ref.nc = nd) :
    ∃ k, colLoop Qry Ref absdiff nd p r nd 0 = .ok k ∧
      (k = nd ↔ within Ref Qry absdiff nd p r) := by
  obtain ⟨k, hk, _, h2, h3, h4⟩ :=
    colLoop_spec Qry Ref absdiff nd p r hp hr hq hn nd 0 (Nat.zero_le _) (by omega)
  refine ⟨k, hk, ?_, ?_⟩
  · intro h m hm
    exact h3 m (Nat.zero_le _) (by omega)
  · intro h
    by_contra hne
    have hlt : k < nd := by omega
    exact h4 hlt (h k hlt)

/-- The column loop never moves its counter backwards. -/
theorem colLoop_ge {α : Type} [RealT α] (Qry Ref : Matrix α) (absdiff : α)
    (nd p r fuel c k : Nat) (h : colLoop Qry Ref absdiff nd p r fuel c = .ok k) : c ≤ k := by
  induction fuel generalizing c with
  | zero =>
    simp only [colLoop, Except.ok.injEq] at h
    omega
  | succ fuel ih =>
    by_cases hlt : c < nd
    · cases hQ : Qry.get p c with
      | error e => simp [colLoop, hlt, hQ] at h
      | ok q =>
        cases hR : Ref.get r c with
        | error e => simp [colLoop, hlt, hQ, hR] at h
        | ok x =>
          by_cases ht : RealT.lt (RealT.abs (RealT.sub q x)) absdiff = true
          · simp only [colLoop, hlt, if_true, hQ, hR, ht] at h
            have := ih (c + 1) h
            omega
          · simp only [colLoop, hlt, if_true, hQ, hR, ht, Bool.false_eq_true, if_false, Except.ok.injEq] at h
            omega
    · simp only [colLoop, hlt, if_false, Except.ok.injEq] at h
      omega

/-- The column loop reads no column beyond the one at which it stops: matrices whose
checked accesses agree on the columns up to the final counter give the same run. -/
theorem colLoop_congr {α : Type} [RealT α] (Qry Ref Q2 R2 : Matrix α)
    (absdiff : α) (nd p r fuel c k : Nat)
    (h : colLoop Qry Ref absdiff nd p r fuel c = .ok k)
    (hag : ∀ m, c ≤ m → m ≤ k → m < nd →
      Q2.get p m = Qry.get p m ∧ R2.get r m = Ref.get r m) :
    colLoop Q2 R2 absdiff nd p r fuel c = .ok k := by
  induction fuel generalizing c with
  | zero =>
    simp only [colLoop] at h ⊢
    exact h
  | succ fuel ih =>
    by_cases hlt : c < nd
    · have hck : c ≤ k := colLoop_ge Qry Ref absdiff nd p r (fuel + 1) c k h
      obtain ⟨e1, e2⟩ := hag c (le_refl _) hck hlt
      cases hQ : Qry.get p c with
      | error e => simp [colLoop, hlt, hQ] at h
      | ok q =>
        cases hR : Ref.get r c with
        | error e => simp [colLoop, hlt, hQ, hR] at h
        | ok x =>
          rw [hQ] at e1
          rw [hR] at e2
          by_cases ht : RealT.lt (RealT.abs (RealT.sub q x)) absdiff = true
          · simp only [colLoop, hlt, if_true, hQ, hR, ht] at h
            simp only [colLoop, hlt, if_true, e1, e2, ht]
            exact ih (c + 1) h (fun m h1 h2 h3 => hag m (by omega) h2 h3)
          · simp only [colLoop, hlt, if_true, hQ, hR, ht, Bool.false_eq_true, if_false] at h
            simp only [colLoop, hlt, if_true, e1, e2, ht, Bool.false_eq_true, if_false]
            exact h
    · simp only [colLoop, hlt, if_false] at h ⊢
      exact h

/-! ## The loop over the reference rows -/

theorem rowStep_eq {α : Type} [RealT α] (Qry Ref : Matrix α) (absdiff : α)
    (nd p r : Nat) (tmp : List Nat) (hp : p < Qry.nr) (hr : r < Ref.nr) (hq : Qry.nc = nd)
    (hn : Ref.nc = nd) :
    rowStep Qry Ref absdiff nd p tmp r =
      .ok (if within Ref Qry absdiff nd p r then tmp ++ [r + 1] else tmp) := by
  obtain ⟨k, hk, hiff⟩ := colLoop_eq_nd_iff Qry Ref absdiff nd p r hp hr hq hn
  simp only [rowStep, hk]
  by_cases h : within Ref Qry absdiff nd p r
  · simp [h, hiff.mpr h]
  · have : k ≠ nd := fun e => h (hiff.mp e)
    simp [h, this]

theorem foldlM_range_succ {ε β : Type} (f : β → Nat → Except ε β) (n : Nat) (b : β) :
    (List.range (n + 1)).foldlM f b = (List.range n).foldlM f b >>= fun x => f x n := by
  rw [List.range_succ, List.foldlM_append]
  simp

theorem rowLoop_upto {α : Type} [RealT α] (Qry Ref : Matrix α) (absdiff : α)
    (nd p : Nat) (tmp : List Nat) (hp : p < Qry.nr) (hq : Qry.nc = nd) (hn : Ref.nc = nd)
    (n : Nat) (hle : n ≤ Ref.nr) :
    rowLoop Qry Ref absdiff nd n p tmp =
      .ok (tmp ++ ((List.range n).filter
        (fun i => decide (within Ref Qry absdiff nd p i))).map (· + 1)) := by
  induction n with
  | zero =>
    simp only [rowLoop, List.range_zero, List.foldlM_nil, List.filter_nil, List.map_nil,
      List.append_nil]
    rfl
  | succ n ih =>
    have ih1 := ih (by omega)
    unfold rowLoop at ih1 ⊢
    rw [foldlM_range_succ, ih1]
    show rowStep Qry Ref absdiff nd p _ n = _
    rw [rowStep_eq Qry Ref absdiff nd p n _ hp (by omega) hq hn]
    by_cases h : within Ref Qry absdiff nd p n
    · simp [h, List.range_succ, List.filter_append]
    · simp [h, List.range_succ, List.filter_append]

/-- The loop over the reference rows, started on an empty buffer, produces the reference
definition shifted by one. -/
theorem rowLoop_eq {α : Type} [RealT α] (Qry Ref : Matrix α) (absdiff : α)
    (p : Nat) (hp : p < Qry.nr) (hq : Qry.nc = Ref.nc) :
    rowLoop Qry Ref absdiff Ref.nc Ref.nr p [] =
      .ok ((specList Ref Qry absdiff p).map (· + 1)) := by
  rw [rowLoop_upto Qry Ref absdiff Ref.nc p [] hp hq rfl Ref.nr (le_refl _)]
  simp [specList]

/-! ## Copying the buffer into the output vector -/

theorem copyvec_upto (source : List Nat) (n : Nat) (hn : n ≤ source.length)
    (target : List Nat) (ht : target.length = source.length) :
    (List.range n).foldlM
      (fun t k =>
        match source[k]? with
        | some v => if k < t.length then Except.ok (t.set k v)
            else Except.error MexError.indexOutOfRange
        | none => Except.error MexError.indexOutOfRange)
      target = .ok (source.take n ++ target.drop n) := by
  induction n with
  | zero => simp; rfl
  | succ n ih =>
    rw [foldlM_range_succ, ih (by omega)]
    have hlt : n < source.length := by omega
    show (match source[n]? with
        | some v => if n < (source.take n ++ target.drop n).length then
            Except.ok ((source.take n ++ target.drop n).set n v)
            else Except.error MexError.indexOutOfRange
        | none => Except.error MexError.indexOutOfRange) = _
    have hlen : (source.take n ++ target.drop n).length = source.length := by
      simp; omega
    rw [List.getElem?_eq_getElem hlt]
    simp only [hlen, hlt, if_true]
    congr 1
    apply List.ext_getElem
    · simp; omega
    · intro i h1 h2
      simp only [List.getElem_set, List.getElem_append, List.getElem_take, List.getElem_drop,
        List.length_take]
      have e1 : min n source.length = n := by omega
      have e2 : min (n + 1) source.length = n + 1 := by omega
      simp only [e1, e2]
      by_cases hi : i < n
      · have : ¬ n = i := by omega
        have h3 : i < n + 1 := by omega
        simp [hi, this, h3]
      · by_cases hi2 : i = n
        · subst hi2; simp
        · have : ¬ n = i := by omega
          have h3 : ¬ i < n + 1 := by omega
          simp only [hi, this, h3, if_false, dite_false]
          congr 1
          omega

/-- Copying `source` into a vector of the same length yields `source`, without any
out-of-range access. -/
theorem copyvec_eq (target source : List Nat) (ht : target.length = source.length) :
    copyvec target source = .ok source := by
  unfold copyvec
  rw [copyvec_upto source source.length (le_refl _) target ht]
  simp [← ht]

/-! ## The loop over the query rows -/

theorem queryStep_eq {α : Type} [RealT α] (Qry Ref : Matrix α) (absdiff : α)
    (st : List (List Nat) × List Nat) (p : Nat) (hp : p < Qry.nr) (hq : Qry.nc = Ref.nc)
    (hst : p < st.1.length) :
    queryStep Qry Ref absdiff Ref.nc Ref.nr st p =
      .ok (st.1.set p (emitted Ref Qry absdiff p), emitted Ref Qry absdiff p) := by
  have hm : mkvec st.1 p (emitted Ref Qry absdiff p).length =
      .ok (List.replicate (emitted Ref Qry absdiff p).length 0) := by
    simp [mkvec, hst]
  have hcp : copyvec (List.replicate (emitted Ref Qry absdiff p).length 0)
      (emitted Ref Qry absdiff p) = .ok (emitted Ref Qry absdiff p) :=
    copyvec_eq _ _ (by simp)
  have hrow : rowLoop Qry Ref absdiff Ref.nc Ref.nr p [] = .ok (emitted Ref Qry absdiff p) :=
    rowLoop_eq Qry Ref absdiff p hp hq
  simp only [queryStep, hrow, hm, hcp]

theorem queryLoop_upto {α : Type} [RealT α] (Qry Ref : Matrix α) (absdiff : α)
    (hq : Qry.nc = Ref.nc) (n : Nat) (hn : n ≤ Qry.nr) :
    ∃ tmp, (List.range n).foldlM (queryStep Qry Ref absdiff Ref.nc Ref.nr)
        (List.replicate Qry.nr [], []) =
      .ok ((List.range n).map (emitted Ref Qry absdiff) ++ List.replicate (Qry.nr - n) [],
        tmp) := by
  induction n with
  | zero => exact ⟨[], by simp; rfl⟩
  | succ n ih =>
    obtain ⟨tmp, h⟩ := ih (by omega)
    refine ⟨emitted Ref Qry absdiff n, ?_⟩
    rw [foldlM_range_succ, h]
    show queryStep Qry Ref absdiff Ref.nc Ref.nr _ n = _
    rw [queryStep_eq Qry Ref absdiff _ n (by omega) hq (by simp; omega)]
    congr 2
    simp only
    have hrep : List.replicate (Qry.nr - n) ([] : List Nat) =
        [] :: List.replicate (Qry.nr - (n + 1)) [] := by
      have : Qry.nr - n = (Qry.nr - (n + 1)) + 1 := by omega
      rw [this, List.replicate_succ]
    rw [hrep, List.range_succ, List.map_append, List.append_assoc]
    have hlen : ((List.range n).map (emitted Ref Qry absdiff)).length = n := by simp
    rw [List.set_append_right _ _ (by omega), hlen]
    simp

/-- On valid input `mexFunction` succeeds, and the cell it returns holds, for every query
row in order, the reference definition with `+1` on every element. -/
theorem mexFunction_eq {α : Type} [RealT α] (Ref Qry : Matrix α) (radius : α)
    (hq : Qry.nc = Ref.nc) (hr : RealT.lt RealT.zero radius = true) :
    mexFunction Ref Qry radius = .ok ((List.range Qry.nr).map (emitted Ref Qry radius)) := by
  obtain ⟨tmp, h⟩ := queryLoop_upto Qry Ref radius hq Qry.nr (le_refl _)
  simp only [mexFunction, hq, hr, if_true, h]
  simp

theorem mem_specList {α : Type} [RealT α] (Ref Qry : Matrix α) (radius : α)
    (j i : Nat) :
    i ∈ specList Ref Qry radius j ↔ i < Ref.nr ∧ within Ref Qry radius Ref.nc j i := by
  simp [specList]

theorem mem_emitted {α : Type} [RealT α] (Ref Qry : Matrix α) (radius : α)
    (j x : Nat) :
    x ∈ emitted Ref Qry radius j ↔
      ∃ i, i < Ref.nr ∧ within Ref Qry radius Ref.nc j i ∧ x = i + 1 := by
  simp only [emitted, List.mem_map, mem_specList]
  constructor
  · rintro ⟨i, ⟨h1, h2⟩, rfl⟩
    exact ⟨i, h1, h2, rfl⟩
  · rintro ⟨i, h1, h2, rfl⟩
    exact ⟨i, ⟨h1, h2⟩, rfl⟩

/-- On valid input, cell `j` of the result is the list emitted for query row `j`. -/
theorem mexFunction_cell {α : Type} [RealT α] (Ref Qry : Matrix α) (radius : α)
    (hq : Qry.nc = Ref.nc) (hr : RealT.lt RealT.zero radius = true) (j : Nat)
    (hj : j < Qry.nr) :
    ∃ ind, mexFunction Ref Qry radius = .ok ind ∧ ind.length = Qry.nr ∧
      ind[j]? = some (emitted Ref Qry radius j) := by
  refine ⟨_, mexFunction_eq Ref Qry radius hq hr, by simp, ?_⟩
  simp [hj]

theorem emitted_sorted {α : Type} [RealT α] (Ref Qry : Matrix α) (radius : α)
    (j : Nat) : (emitted Ref Qry radius j).Pairwise (· < ·) := by
  unfold emitted specList
  rw [List.pairwise_map]
  have h : (List.range Ref.nr).Pairwise (· < ·) := List.pairwise_lt_range Ref.nr
  exact (h.sublist (List.filter_sublist _)).imp (fun hab => Nat.succ_lt_succ hab)

/-- The scan of query row `p` alone, started on an empty buffer, gives the emitted list. -/
theorem rowLoop_emitted {α : Type} [RealT α] (Qry Ref : Matrix α) (absdiff : α)
    (p : Nat) (hp : p < Qry.nr) (hq : Qry.nc = Ref.nc) :
    rowLoop Qry Ref absdiff Ref.nc Ref.nr p [] = .ok (emitted Ref Qry absdiff p) :=
  rowLoop_eq Qry Ref absdiff p hp hq

/-- The emitted list depends on the query matrix only through the coordinates of the
query row. -/
theorem emitted_congr {α : Type} [RealT α] (Ref Q1 Q2 : Matrix α) (radius : α)
    (j1 j2 : Nat) (hrow : ∀ c, c < Ref.nc → Q1.elem j1 c = Q2.elem j2 c) :
    emitted Ref Q1 radius j1 = emitted Ref Q2 radius j2 := by
  unfold emitted specList
  congr 1
  apply List.filter_congr
  intro i _
  have h : within Ref Q1 radius Ref.nc j1 i ↔ within Ref Q2 radius Ref.nc j2 i := by
    constructor
    · intro h c hc
      have := h c hc
      unfold passes at this ⊢
      rw [← hrow c hc]
      exact this
    · intro h c hc
      have := h c hc
      unfold passes at this ⊢
      rw [hrow c hc]
      exact this
  simp only [h]

/-! ## Exact arithmetic -/

/-- In exact arithmetic the computed test is the strict inequality on the difference. -/
theorem passes_exact {α : Type} [LinearOrderedRing α] (Qry Ref : Matrix α) (absdiff : α)
    (p r c : Nat) :
    passes Qry Ref absdiff p r c = true ↔ |Qry.elem p c - Ref.elem r c| < absdiff := by
  simp [passes, RealT.lt, RealT.abs, RealT.sub]

theorem within_exact {α : Type} [LinearOrderedRing α] (Ref Qry : Matrix α) (radius : α)
    (d j i : Nat) :
    within Ref Qry radius d j i ↔ ∀ c, c < d → |Qry.elem j c - Ref.elem i c| < radius := by
  unfold within
  simp only [passes_exact]

/-- In exact arithmetic the radius check is `0 < radius`. -/
theorem zero_lt_exact {α : Type} [LinearOrderedRing α] (radius : α) :
    (RealT.lt RealT.zero radius = true) ↔ 0 < radius := by
  simp [RealT.lt, RealT.zero]

theorem mexFunction_eq_exact {α : Type} [LinearOrderedRing α] (Ref Qry : Matrix α)
    (radius : α) (hq : Qry.nc = Ref.nc) (hr : 0 < radius) :
    mexFunction Ref Qry radius = .ok ((List.range Qry.nr).map (emitted Ref Qry radius)) :=
  mexFunction_eq Ref Qry radius hq ((zero_lt_exact radius).mpr hr)

theorem mexFunction_cell_exact {α : Type} [LinearOrderedRing α] (Ref Qry : Matrix α)
    (radius : α) (hq : Qry.nc = Ref.nc) (hr : 0 < radius) (j : Nat) (hj : j < Qry.nr) :
    ∃ ind, mexFunction Ref Qry radius = .ok ind ∧ ind.length = Qry.nr ∧
      ind[j]? = some (emitted Ref Qry radius j) :=
  mexFunction_cell Ref Qry radius hq ((zero_lt_exact radius).mpr hr) j hj

theorem mem_emitted_exact {α : Type} [LinearOrderedRing α] (Ref Qry : Matrix α) (radius : α)
    (j x : Nat) :
    x ∈ emitted Ref Qry radius j ↔
      ∃ i, i < Ref.nr ∧ (∀ c, c < Ref.nc → |Qry.elem j c - Ref.elem i c| < radius) ∧
        x = i + 1 := by
  simp only [mem_emitted, within_exact]

set_option maxRecDepth 100000

/-! ## Binary64 arithmetic -/

/-- The model of binary64 arithmetic on known values: exact small integers, rounding to
nearest with ties to even at `2^53`, the two rounded differences used below, overflow,
and the special values. -/
theorem Double.arith_examples :
    Double.ofInt 1 = .fin false 4503599627370496 (-52) ∧
    Double.sub (.ofInt 3) (.ofInt 1) = .fin false 4503599627370496 (-51) ∧
    Double.ofInt 9007199254740993 = .fin false 4503599627370496 1 ∧
    Double.ofInt 9007199254740995 = .fin false 4503599627370498 1 ∧
    Double.ofInt 10000000000000000 = .fin false 5000000000000000 1 ∧
    Double.sub (.ofInt 10000000000000000) (.ofInt 1) = .fin false 5000000000000000 1 ∧
    Double.sub (.ofInt 1) (.fin false 4503599627370496 (-112)) =
      .fin false 4503599627370496 (-52) ∧
    Double.sub (.fin false 9007199254740991 971) (.fin true 9007199254740991 971) =
      .inf false ∧
    Double.sub (.inf false) (.inf false) = .nan ∧
    Double.lt (Double.abs .nan) (.inf false) = false ∧
    Double.lt (.ofInt (-1)) Double.zero = true ∧
    Double.lt (.fin true 0 (-1074)) Double.zero = false ∧
    Double.eq (.fin true 0 (-1074)) Double.zero = true :=
  ⟨rfl, rfl, rfl, rfl, rfl, rfl, rfl, rfl, rfl, rfl, rfl, rfl, rfl⟩

/-- The difference of two finite doubles that compare equal is a zero, whose absolute
value `+0` is below every radius that passed the radius check. -/
theorem Double.eq_passes (x y radius : Double) (hx : x.isFinite = true)
    (he : Double.eq x y = true) (hr : Double.lt Double.zero radius = true) :
    Double.lt (Double.abs (Double.sub x y)) radius = true := by
  cases x with
  | nan => simp [Double.isFinite] at hx
  | inf s => simp [Double.isFinite] at hx
  | fin s m e =>
    cases y with
    | nan => simp [Double.eq] at he
    | inf t => simp [Double.eq] at he
    | fin t n f =>
      have hs : Double.scaled s m e (min e f) = Double.scaled t n f (min e f) := by
        simpa [Double.eq] using he
      have h0 : Double.abs (Double.sub (.fin s m e) (.fin t n f)) = Double.zero := by
        simp [Double.sub, Double.abs, Double.zero, hs]
      rw [h0]
      exact hr

/-- A finite double compares equal to itself. -/
theorem Double.eq_self (x : Double) (hx : x.isFinite = true) : Double.eq x x = true := by
  cases x with
  | nan => simp [Double.isFinite] at hx
  | inf s => simp [Double.isFinite] at hx
  | fin s m e => simp [Double.eq]

/-- A reference row whose finite coordinates compare equal to those of the query row is
emitted when the radius passed the radius check. -/
theorem self_mem_emitted (Ref Qry : Matrix Double) (radius : Double)
    (hr : Double.lt Double.zero radius = true) (j i : Nat) (hi : i < Ref.nr)
    (hrow : ∀ c, c < Ref.nc →
      Double.eq (Qry.elem j c) (Ref.elem i c) = true ∧ (Qry.elem j c).isFinite = true) :
    i + 1 ∈ emitted Ref Qry radius j := by
  rw [mem_emitted]
  refine ⟨i, hi, ?_, rfl⟩
  intro c hc
  obtain ⟨e, hfin⟩ := hrow c hc
  exact Double.eq_passes _ _ radius hfin e hr

/-- Without columns every reference row is emitted. -/
theorem emitted_zero_dim {α : Type} [RealT α] (Ref Qry : Matrix α) (radius : α)
    (hd : Ref.nc = 0) (j : Nat) : emitted Ref Qry radius j = List.range' 1 Ref.nr := by
  have hw : ∀ i, within Ref Qry radius Ref.nc j i := by
    intro i c hc
    omega
  unfold emitted specList
  rw [List.range'_eq_map_range]
  have hf : (List.range Ref.nr).filter (fun i => decide (within Ref Qry radius Ref.nc j i)) =
      List.range Ref.nr := by
    rw [List.filter_eq_self]
    intro i _
    simp [hw i]
  rw [hf]
  apply List.map_congr_left
  intro i _
  omega

/-! ## The contract -/

/-- Counterexample to C1 as stated: the reference point `1`, the query point `1e16` and
the radius `1e16` are a valid input on which `|1e16 - 1| < 1e16` holds for the real
numbers, and yet index 1 is not reported: the double difference `1e16 - 1` is rounded to
`1e16`, which is not below the radius. -/
theorem C1_exact_condition_fails :
    matBig.nc = matOne.nc ∧ Double.lt Double.zero radBig = true ∧
    (matBig.elem 0 0).toRat = some (10 ^ 16) ∧ (matOne.elem 0 0).toRat = some 1 ∧
    radBig.toRat = some (10 ^ 16) ∧
    (∀ c, c < matOne.nc → exactPasses (matBig.elem 0 c) (matOne.elem 0 c) radBig = true) ∧
    Double.sub (matBig.elem 0 0) (matOne.elem 0 0) = radBig ∧
    mexFunction matOne matBig radBig = .ok [[]] ∧
    ¬ (∃ ind l, mexFunction matOne matBig radBig = .ok ind ∧ ind[0]? = some l ∧
      0 + 1 ∈ l) := by
  have e1 : matBig.elem 0 0 = .fin false 5000000000000000 1 := rfl
  have e2 : matOne.elem 0 0 = .fin false 4503599627370496 (-52) := rfl
  have e3 : radBig = .fin false 5000000000000000 1 := rfl
  have hrun : mexFunction matOne matBig radBig = .ok [[]] := rfl
  refine ⟨rfl, rfl, ?_, ?_, ?_, ?_, rfl, hrun, ?_⟩
  · rw [e1]; norm_num [Double.toRat]
  · rw [e2]; norm_num [Double.toRat]
  · rw [e3]; norm_num [Double.toRat]
  · intro c hc
    have hc0 : c = 0 := by
      have : matOne.nc = 1 := rfl
      omega
    subst hc0
    rw [e1, e2, e3]
    norm_num [exactPasses, Double.toRat]
  · rintro ⟨ind, l, h1, h2, h3⟩
    rw [hrun] at h1
    cases h1
    simp at h2
    subst h2
    simp at h3

/-- C1 (membership equivalence, amended): on valid input in double precision, for every
query row `j` and reference row `i`, the index `i + 1` is in the list reported for `j` if
and only if at every column the test holds as the program computes it, that is, the
absolute value of the rounded double difference `Qry(j,c) - Ref(i,c)` is below the radius
in the double comparison (which a NaN never passes). -/
theorem C1_membership_iff (Ref Qry : Matrix Double) (radius : Double)
    (hq : Qry.nc = Ref.nc) (hr : Double.lt Double.zero radius = true) (j i : Nat)
    (hj : j < Qry.nr) (hi : i < Ref.nr) :
    ∃ ind l, mexFunction Ref Qry radius = .ok ind ∧ ind[j]? = some l ∧
      (i + 1 ∈ l ↔ ∀ c, c < Ref.nc →
        Double.lt (Double.abs (Double.sub (Qry.elem j c) (Ref.elem i c))) radius = true) := by
  obtain ⟨ind, h1, _, h3⟩ := mexFunction_cell Ref Qry radius hq hr j hj
  refine ⟨ind, _, h1, h3, ?_⟩
  rw [mem_emitted]
  constructor
  · rintro ⟨k, _, hk, e⟩
    have : k = i := by omega
    subst this
    exact hk
  · intro h
    exact ⟨i, hi, h, rfl⟩

/-- Witness of C1 on scenario 1 in doubles: reference row 2 is reported for query row 0,
and the run gives `[[1, 3]]`. -/
theorem C1_membership_iff_witness :
    (qry1D.nc = ref1D.nc ∧ Double.lt Double.zero (.ofInt 2) = true ∧ 0 < qry1D.nr ∧
      2 < ref1D.nr) ∧
    (∃ ind l, mexFunction ref1D qry1D (.ofInt 2) = .ok ind ∧ ind[0]? = some l ∧
      (2 + 1 ∈ l ↔ ∀ c, c < ref1D.nc →
        Double.lt (Double.abs (Double.sub (qry1D.elem 0 c) (ref1D.elem 2 c))) (.ofInt 2) =
          true)) ∧
    mexFunction ref1D qry1D (.ofInt 2) = .ok [[1, 3]] :=
  ⟨⟨rfl, rfl, by decide, by decide⟩,
    C1_membership_iff ref1D qry1D (.ofInt 2) rfl rfl 0 2 (by decide) (by decide), rfl⟩

/-- Counterexample to C2 as stated: for the reference point `2^-60`, the query point `1`
and the radius `1`, the reference definition on the real numbers gives the list `[0]`,
emitted as `[1]`, since `|1 - 2^-60| < 1`; the program writes the empty list, because the
double difference `1 - 2^-60` is rounded to `1`. -/
theorem C2_exact_output_fails :
    matOne.nc = matTiny.nc ∧ Double.lt Double.zero (.ofInt 1) = true ∧
    (matOne.elem 0 0).toRat = some 1 ∧ (matTiny.elem 0 0).toRat = some (1 / 2 ^ 60) ∧
    (Double.ofInt 1).toRat = some 1 ∧
    ((List.range matTiny.nr).filter (fun i => decide (∀ c, c < matTiny.nc →
      exactPasses (matOne.elem 0 c) (matTiny.elem i c) (.ofInt 1) = true))).map (· + 1) =
        [1] ∧
    Double.sub (matOne.elem 0 0) (matTiny.elem 0 0) = .ofInt 1 ∧
    mexFunction matTiny matOne (.ofInt 1) = .ok [[]] := by
  have e1 : matOne.elem 0 0 = .fin false 4503599627370496 (-52) := rfl
  have e2 : matTiny.elem 0 0 = .fin false 4503599627370496 (-112) := rfl
  have e3 : Double.ofInt 1 = .fin false 4503599627370496 (-52) := rfl
  have hp : exactPasses (matOne.elem 0 0) (matTiny.elem 0 0) (.ofInt 1) = true := by
    rw [e1, e2, e3]
    norm_num [exactPasses, Double.toRat]
    rw [abs_lt]
    constructor <;> norm_num
  have hall : ∀ c, c < matTiny.nc →
      exactPasses (matOne.elem 0 c) (matTiny.elem 0 c) (.ofInt 1) = true := by
    intro c hc
    have hc0 : c = 0 := by
      have : matTiny.nc = 1 := rfl
      omega
    subst hc0
    exact hp
  refine ⟨rfl, rfl, ?_, ?_, ?_, ?_, rfl, rfl⟩
  · rw [e1]; norm_num [Double.toRat]
  · rw [e2]; norm_num [Double.toRat]
  · rw [e3]; norm_num [Double.toRat]
  · have hn : List.range matTiny.nr = [0] := rfl
    have hd : decide (∀ c, c < matTiny.nc →
        exactPasses (matOne.elem 0 c) (matTiny.elem 0 c) (.ofInt 1) = true) = true :=
      decide_eq_true hall
    rw [hn]
    simp [List.filter_cons, hd]

/-- C2 (exact output, 1-based offset, amended): on valid input in double precision, for
every query row `j` the list written for `j` is the list of the rows `i` of
`0, ..., n-1`, in this order, that pass the test at every column as the program computes
it (absolute value of the rounded double difference below the radius), with `+1` added to
every element. -/
theorem C2_exact_output (Ref Qry : Matrix Double) (radius : Double)
    (hq : Qry.nc = Ref.nc) (hr : Double.lt Double.zero radius = true) (j : Nat)
    (hj : j < Qry.nr) :
    ∃ ind, mexFunction Ref Qry radius = .ok ind ∧
      ind[j]? = some (((List.range Ref.nr).filter (fun i => decide (∀ c, c < Ref.nc →
        Double.lt (Double.abs (Double.sub (Qry.elem j c) (Ref.elem i c))) radius = true))).map
          (· + 1)) := by
  obtain ⟨ind, h1, _, h3⟩ := mexFunction_cell Ref Qry radius hq hr j hj
  exact ⟨ind, h1, h3⟩

/-- Witness of C2 on scenario 1 in doubles: the 0-based list `[0, 2]` is emitted as
`[1, 3]`. -/
theorem C2_exact_output_witness :
    (qry1D.nc = ref1D.nc ∧ Double.lt Double.zero (.ofInt 2) = true ∧ 0 < qry1D.nr) ∧
    (∃ ind, mexFunction ref1D qry1D (.ofInt 2) = .ok ind ∧
      ind[0]? = some (((List.range ref1D.nr).filter (fun i => decide (∀ c, c < ref1D.nc →
        Double.lt (Double.abs (Double.sub (qry1D.elem 0 c) (ref1D.elem i c))) (.ofInt 2) =
          true))).map (· + 1))) ∧
    ((List.range ref1D.nr).filter (fun i => decide (∀ c, c < ref1D.nc →
        Double.lt (Double.abs (Double.sub (qry1D.elem 0 c) (ref1D.elem i c))) (.ofInt 2) =
          true))) = [0, 2] ∧
    mexFunction ref1D qry1D (.ofInt 2) = .ok [[1, 3]] :=
  ⟨⟨rfl, rfl, by decide⟩,
    C2_exact_output ref1D qry1D (.ofInt 2) rfl rfl 0 (by decide), by decide, rfl⟩

/-- C4 (the inclusive wording of the usage text does not hold): the reference point `3`
differs from the query point `0` by no more than the radius `3` on its only coordinate,
the input is valid, and yet `mexFunction` reports no index for this query. -/
theorem C4_inclusive_fails :
    qry3.nc = ref3.nc ∧ (0 : ℤ) < 3 ∧
    (∀ c, c < ref3.nc → |qry3.elem 0 c - ref3.elem 0 c| ≤ 3) ∧
    mexFunction ref3 qry3 3 = .ok [[]] ∧
    ¬ (∃ ind l, mexFunction ref3 qry3 3 = .ok ind ∧ ind[0]? = some l ∧ 0 + 1 ∈ l) := by
  refine ⟨rfl, by decide, by decide, rfl, ?_⟩
  rintro ⟨ind, l, h1, h2, h3⟩
  have e : mexFunction ref3 qry3 3 = .ok [[]] := rfl
  rw [e] at h1
  cases h1
  simp at h2
  subst h2
  simp at h3

/-- C5 (ordering invariant): on valid input, the list reported for every query row is
strictly increasing, and therefore holds no index twice. -/
theorem C5_strictly_increasing {α : Type} [LinearOrderedRing α] (Ref Qry : Matrix α)
    (radius : α) (hq : Qry.nc = Ref.nc) (hr : 0 < radius) (j : Nat) (hj : j < Qry.nr) :
    ∃ ind l, mexFunction Ref Qry radius = .ok ind ∧ ind[j]? = some l ∧
      l.Sorted (· < ·) ∧ l.Nodup := by
  obtain ⟨ind, h1, _, h3⟩ := mexFunction_cell_exact Ref Qry radius hq hr j hj
  have hs : (emitted Ref Qry radius j).Sorted (· < ·) := emitted_sorted Ref Qry radius j
  exact ⟨ind, _, h1, h3, hs, hs.nodup⟩

/-- Witness of C5 on scenario 1, whose list for query row 0 is `[1, 3]`. -/
theorem C5_strictly_increasing_witness :
    qry1.nc = ref1.nc ∧ (0 : ℤ) < 2 ∧ 0 < qry1.nr ∧
    ∃ ind l, mexFunction ref1 qry1 2 = .ok ind ∧ ind[0]? = some l ∧
      l.Sorted (· < ·) ∧ l.Nodup :=
  ⟨rfl, by decide, by decide,
    C5_strictly_increasing ref1 qry1 2 rfl (by decide) 0 (by decide)⟩

/-- C6 (index validity): on valid input, every index in every list of the result lies in
`[1, n]`, where `n` is the number of reference rows; the 0-based row it stands for lies in
`[0, n)`. -/
theorem C6_index_valid {α : Type} [LinearOrderedRing α] (Ref Qry : Matrix α) (radius : α)
    (hq : Qry.nc = Ref.nc) (hr : 0 < radius) :
    ∃ ind, mexFunction Ref Qry radius = .ok ind ∧
      ∀ l, l ∈ ind → ∀ x, x ∈ l → 1 ≤ x ∧ x ≤ Ref.nr ∧ x - 1 < Ref.nr := by
  refine ⟨_, mexFunction_eq_exact Ref Qry radius hq hr, ?_⟩
  intro l hl x hx
  rw [List.mem_map] at hl
  obtain ⟨j, _, rfl⟩ := hl
  rw [mem_emitted_exact] at hx
  obtain ⟨i, hi, _, rfl⟩ := hx
  omega

/-- Witness of C6 on scenario 1 (three reference rows). -/
theorem C6_index_valid_witness :
    qry1.nc = ref1.nc ∧ (0 : ℤ) < 2 ∧
    ∃ ind, mexFunction ref1 qry1 2 = .ok ind ∧
      ∀ l, l ∈ ind → ∀ x, x ∈ l → 1 ≤ x ∧ x ≤ ref1.nr ∧ x - 1 < ref1.nr :=
  ⟨rfl, by decide, C6_index_valid ref1 qry1 2 rfl (by decide)⟩

/-- C7 (shape invariant): on valid input the result has exactly `p` entries, `p` the
number of query rows, and entry `j` is the list that the scan of query row `j` produces
on an empty buffer. -/
theorem C7_shape {α : Type} [LinearOrderedRing α] (Ref Qry : Matrix α) (radius : α)
    (hq : Qry.nc = Ref.nc) (hr : 0 < radius) :
    ∃ ind, mexFunction Ref Qry radius = .ok ind ∧ ind.length = Qry.nr ∧
      ∀ j, j < Qry.nr → ∃ l, ind[j]? = some l ∧
        rowLoop Qry Ref radius Ref.nc Ref.nr j [] = .ok l := by
  refine ⟨_, mexFunction_eq_exact Ref Qry radius hq hr, by simp, ?_⟩
  intro j hj
  exact ⟨emitted Ref Qry radius j, by simp [hj], rowLoop_emitted Qry Ref radius j hj hq⟩

/-- Witness of C7 on scenario 2: two query rows give the two lists `[1]` and `[]`
(`[0]` and `[]` in 0-based numbering). -/
theorem C7_shape_witness :
    qry2.nc = ref2.nc ∧ (0 : ℤ) < 1 ∧
    (∃ ind, mexFunction ref2 qry2 1 = .ok ind ∧ ind.length = qry2.nr ∧
      ∀ j, j < qry2.nr → ∃ l, ind[j]? = some l ∧
        rowLoop qry2 ref2 1 ref2.nc ref2.nr j [] = .ok l) ∧
    mexFunction ref2 qry2 1 = .ok [[1], []] :=
  ⟨rfl, by decide, C7_shape ref2 qry2 1 rfl (by decide), rfl⟩

/-- C8 (dimension mismatch): when the column counts of the query and the reference matrix
differ, the call aborts with the error "Input size mismatch", whatever the radius and the
contents of the matrices; no result is returned. -/
theorem C8_dimension_mismatch {α : Type} [LinearOrderedRing α] (Ref Qry : Matrix α)
    (radius : α) (hq : Qry.nc ≠ Ref.nc) :
    mexFunction Ref Qry radius = .error .inputSizeMismatch := by
  simp [mexFunction, hq]

/-- Witness of C8: a reference with 3 columns and a query with 2 columns, with a positive
and with a non-positive radius. -/
theorem C8_dimension_mismatch_witness :
    qryNarrow.nc ≠ refWide.nc ∧
    mexFunction refWide qryNarrow 1 = .error .inputSizeMismatch ∧
    mexFunction refWide qryNarrow 0 = .error .inputSizeMismatch :=
  ⟨by decide, C8_dimension_mismatch refWide qryNarrow 1 (by decide),
    C8_dimension_mismatch refWide qryNarrow 0 (by decide)⟩

/-- C10 (degenerate inputs): on valid input, without reference rows the result has `p`
entries, all of them the empty list; without query rows the result is the empty
sequence; both calls succeed. -/
theorem C10_degenerate {α : Type} [LinearOrderedRing α] (Ref Qry : Matrix α) (radius : α)
    (hq : Qry.nc = Ref.nc) (hr : 0 < radius) :
    (Ref.nr = 0 → mexFunction Ref Qry radius = .ok (List.replicate Qry.nr [])) ∧
    (Qry.nr = 0 → mexFunction Ref Qry radius = .ok []) := by
  rw [mexFunction_eq_exact Ref Qry radius hq hr]
  constructor
  · intro h
    congr 1
    apply List.ext_getElem
    · simp
    · intro i h1 h2
      simp [emitted, specList, h]
  · intro h
    simp [h]

/-- Witness of C10: no reference rows against two query rows gives two empty lists, and
the reference of scenario 1 against no query rows gives the empty sequence. -/
theorem C10_degenerate_witness :
    (qryTwo.nc = noRows.nc ∧ (0 : ℤ) < 1 ∧ noRows.nr = 0 ∧
      mexFunction noRows qryTwo 1 = .ok [[], []]) ∧
    (noRows.nc = ref1.nc ∧ noRows.nr = 0 ∧ mexFunction ref1 noRows 1 = .ok []) :=
  ⟨⟨rfl, by decide, rfl, (C10_degenerate noRows qryTwo 1 rfl (by decide)).1 rfl⟩,
    ⟨rfl, rfl, (C10_degenerate ref1 noRows 1 rfl (by decide)).2 rfl⟩⟩

/-- C11 (query independence): for a reference matrix, a radius `> 0` and two query
matrices with the column count of the reference, if row `j1` of the first has the same
coordinates as row `j2` of the second, then the list reported for `j1` in the run on the
first equals the list reported for `j2` in the run on the second.  The buffer `tmp` carries
nothing from one query row to the next: the step for a query row gives the same cell
contents and buffer whatever the buffer holds on entry. -/
theorem C11_query_independence {α : Type} [LinearOrderedRing α] (Ref Q1 Q2 : Matrix α)
    (radius : α) (h1 : Q1.nc = Ref.nc) (h2 : Q2.nc = Ref.nc) (hr : 0 < radius)
    (j1 j2 : Nat) (hj1 : j1 < Q1.nr) (hj2 : j2 < Q2.nr)
    (hrow : ∀ c, c < Ref.nc → Q1.elem j1 c = Q2.elem j2 c) :
    (∃ ind1 ind2 l, mexFunction Ref Q1 radius = .ok ind1 ∧
      mexFunction Ref Q2 radius = .ok ind2 ∧ ind1[j1]? = some l ∧ ind2[j2]? = some l) ∧
    (∀ (ind : List (List Nat)) (tmp tmp2 : List Nat),
      queryStep Q1 Ref radius Ref.nc Ref.nr (ind, tmp) j1 =
        queryStep Q1 Ref radius Ref.nc Ref.nr (ind, tmp2) j1) := by
  obtain ⟨ind1, a1, _, a3⟩ := mexFunction_cell_exact Ref Q1 radius h1 hr j1 hj1
  obtain ⟨ind2, b1, _, b3⟩ := mexFunction_cell_exact Ref Q2 radius h2 hr j2 hj2
  refine ⟨⟨ind1, ind2, _, a1, b1, a3, ?_⟩, fun _ _ _ => rfl⟩
  rw [b3, emitted_congr Ref Q1 Q2 radius j1 j2 hrow]

/-- Witness of C11: the point `(0,0)` is row 0 of a one-row query and row 1 of a two-row
query; against the reference of scenario 1 both runs report `[1, 3]` for it. -/
theorem C11_query_independence_witness :
    (qry1.nc = ref1.nc ∧ qrySwapped.nc = ref1.nc ∧ (0 : ℤ) < 2 ∧
      (∀ c, c < ref1.nc → qry1.elem 0 c = qrySwapped.elem 1 c)) ∧
    ((∃ ind1 ind2 l, mexFunction ref1 qry1 2 = .ok ind1 ∧
      mexFunction ref1 qrySwapped 2 = .ok ind2 ∧ ind1[0]? = some l ∧ ind2[1]? = some l) ∧
    (∀ (ind : List (List Nat)) (tmp tmp2 : List Nat),
      queryStep qry1 ref1 2 ref1.nc ref1.nr (ind, tmp) 0 =
        queryStep qry1 ref1 2 ref1.nc ref1.nr (ind, tmp2) 0)) ∧
    mexFunction ref1 qry1 2 = .ok [[1, 3]] ∧
    mexFunction ref1 qrySwapped 2 = .ok [[2], [1, 3]] :=
  ⟨⟨rfl, rfl, by decide, by decide⟩,
    C11_query_independence ref1 qry1 qrySwapped 2 rfl rfl (by decide) 0 1 (by decide)
      (by decide) (by decide),
    rfl, rfl⟩

/-- C12 (the scan cannot fail): on valid input no access of the scan is out of range.
The call returns no error; at all indices the three loops range over (`p < Qry.nr`,
`r < Ref.nr`, `c < nd`) the accesses `Qry(p,c)` and `Ref(r,c)` are inside the matrices;
the column loop and the row loop return normally; cell `p` exists, and every write
`target[k]` of `copyvec` has `k` below the length `tmp.size()` of the vector made for it. -/
theorem C12_scan_cannot_fail {α : Type} [LinearOrderedRing α] (Ref Qry : Matrix α)
    (radius : α) (hq : Qry.nc = Ref.nc) (hr : 0 < radius) :
    (∀ e, mexFunction Ref Qry radius ≠ .error e) ∧
    (∀ p r c, p < Qry.nr → r < Ref.nr → c < Ref.nc →
      (p < Qry.nr ∧ c < Qry.nc) ∧ (r < Ref.nr ∧ c < Ref.nc) ∧
      Qry.get p c = .ok (Qry.elem p c) ∧ Ref.get r c = .ok (Ref.elem r c)) ∧
    (∀ p r, p < Qry.nr → r < Ref.nr →
      ∃ k, colLoop Qry Ref radius Ref.nc p r Ref.nc 0 = .ok k) ∧
    (∀ p, p < Qry.nr → ∃ tmp, rowLoop Qry Ref radius Ref.nc Ref.nr p [] = .ok tmp ∧
      (∀ ind : List (List Nat), ind.length = Qry.nr →
        mkvec ind p tmp.length = .ok (List.replicate tmp.length 0)) ∧
      (∀ k, k < tmp.length → k < (List.replicate tmp.length 0).length) ∧
      copyvec (List.replicate tmp.length 0) tmp = .ok tmp) := by
  refine ⟨?_, ?_, ?_, ?_⟩
  · intro e he
    rw [mexFunction_eq_exact Ref Qry radius hq hr] at he
    cases he
  · intro p r c hp hr2 hc
    have hc2 : c < Qry.nc := by omega
    exact ⟨⟨hp, hc2⟩, ⟨hr2, hc⟩, by simp [Matrix.get, hp, hc2], by simp [Matrix.get, hr2, hc]⟩
  · intro p r hp hr2
    obtain ⟨k, hk, _⟩ := colLoop_eq_nd_iff Qry Ref radius Ref.nc p r hp hr2 hq rfl
    exact ⟨k, hk⟩
  · intro p hp
    refine ⟨emitted Ref Qry radius p, rowLoop_emitted Qry Ref radius p hp hq, ?_, ?_, ?_⟩
    · intro ind hlen
      simp [mkvec, hlen, hp]
    · intro k hk
      simpa using hk
    · exact copyvec_eq _ _ (by simp)

/-- Witness of C12 on scenario 1.  The error branch is live: the column loop on a query
with 2 columns run up to `nd = 3`, as it would be without the size check, reads out of
range. -/
theorem C12_scan_cannot_fail_witness :
    (qry1.nc = ref1.nc ∧ (0 : ℤ) < 2) ∧
    ((∀ e, mexFunction ref1 qry1 2 ≠ .error e) ∧
    (∀ p r c, p < qry1.nr → r < ref1.nr → c < ref1.nc →
      (p < qry1.nr ∧ c < qry1.nc) ∧ (r < ref1.nr ∧ c < ref1.nc) ∧
      qry1.get p c = .ok (qry1.elem p c) ∧ ref1.get r c = .ok (ref1.elem r c)) ∧
    (∀ p r, p < qry1.nr → r < ref1.nr →
      ∃ k, colLoop qry1 ref1 2 ref1.nc p r ref1.nc 0 = .ok k) ∧
    (∀ p, p < qry1.nr → ∃ tmp, rowLoop qry1 ref1 2 ref1.nc ref1.nr p [] = .ok tmp ∧
      (∀ ind : List (List Nat), ind.length = qry1.nr →
        mkvec ind p tmp.length = .ok (List.replicate tmp.length 0)) ∧
      (∀ k, k < tmp.length → k < (List.replicate tmp.length 0).length) ∧
      copyvec (List.replicate tmp.length 0) tmp = .ok tmp)) ∧
    colLoop qryNarrow refWide 1 3 0 0 3 0 = .error .indexOutOfRange :=
  ⟨⟨rfl, by decide⟩, C12_scan_cannot_fail ref1 qry1 2 rfl (by decide), rfl⟩

/-- Counterexample to C13 as stated: for the reference point `1`, the query point `1e16`
and the radius `1e16`, the test `|1e16 - 1| < 1e16` on the real numbers fails at no
column, so the claimed final counter is `d = 1`; the column loop ends with counter `0`,
because the double difference is rounded to `1e16`. -/
theorem C13_exact_counter_fails :
    matBig.nc = matOne.nc ∧ 0 < matBig.nr ∧ 0 < matOne.nr ∧ matOne.nc = 1 ∧
    (∀ c, c < matOne.nc → exactPasses (matBig.elem 0 c) (matOne.elem 0 c) radBig = true) ∧
    Double.lt (Double.abs (Double.sub (matBig.elem 0 0) (matOne.elem 0 0))) radBig = false ∧
    colLoop matBig matOne radBig matOne.nc 0 0 matOne.nc 0 = .ok 0 := by
  have e1 : matBig.elem 0 0 = .fin false 5000000000000000 1 := rfl
  have e2 : matOne.elem 0 0 = .fin false 4503599627370496 (-52) := rfl
  have e3 : radBig = .fin false 5000000000000000 1 := rfl
  refine ⟨rfl, by decide, by decide, rfl, ?_, rfl, rfl⟩
  intro c hc
  have hc0 : c = 0 := by
    have : matOne.nc = 1 := rfl
    omega
  subst hc0
  rw [e1, e2, e3]
  norm_num [exactPasses, Double.toRat]

/-- C13 (left-to-right early exit, amended): for in-range rows `p` and `r` of matrices of
doubles with `d` columns each, the column loop ends with its counter at the smallest
column at which the test fails as the program computes it (absolute value of the rounded
double difference not below the radius), or at `d` when no column fails; so the counter
equals `d` exactly when the computed test holds at all `d` columns; and no column after
the final counter is read: the run is the same on any matrices whose accesses agree up to
that column, whatever lies beyond, out-of-range columns included. -/
theorem C13_early_exit (Ref Qry : Matrix Double) (radius : Double)
    (hq : Qry.nc = Ref.nc) (p r : Nat) (hp : p < Qry.nr) (hr : r < Ref.nr) :
    ∃ k, colLoop Qry Ref radius Ref.nc p r Ref.nc 0 = .ok k ∧ k ≤ Ref.nc ∧
      (∀ m, m < k →
        Double.lt (Double.abs (Double.sub (Qry.elem p m) (Ref.elem r m))) radius = true) ∧
      (k < Ref.nc →
        ¬ Double.lt (Double.abs (Double.sub (Qry.elem p k) (Ref.elem r k))) radius = true) ∧
      (k = Ref.nc ↔ ∀ c, c < Ref.nc →
        Double.lt (Double.abs (Double.sub (Qry.elem p c) (Ref.elem r c))) radius = true) ∧
      (∀ Q2 R2 : Matrix Double,
        (∀ m, m ≤ k → m < Ref.nc → Q2.get p m = Qry.get p m ∧ R2.get r m = Ref.get r m) →
        colLoop Q2 R2 radius Ref.nc p r Ref.nc 0 = .ok k) := by
  obtain ⟨k, hk, _, h2, h3, h4⟩ :=
    colLoop_spec Qry Ref radius Ref.nc p r hp hr hq rfl Ref.nc 0 (Nat.zero_le _) (by omega)
  refine ⟨k, hk, h2, fun m hm => h3 m (Nat.zero_le _) hm, h4, ?_, ?_⟩
  · constructor
    · intro e c hc
      exact h3 c (Nat.zero_le _) (by omega)
    · intro hall
      by_contra hne
      have hlt : k < Ref.nc := by omega
      exact h4 hlt (hall k hlt)
  · intro Q2 R2 hag
    exact colLoop_congr Qry Ref Q2 R2 radius Ref.nc p r Ref.nc 0 k hk
      (fun m _ h2 h3 => hag m h2 h3)

/-- Witness of C13 on scenario 1 in doubles: against the reference point `(5,5)` the walk
for the query point `(0,0)` stops at column 0, against `(1,1)` it reaches column 2. -/
theorem C13_early_exit_witness :
    (qry1D.nc = ref1D.nc ∧ 0 < qry1D.nr ∧ 1 < ref1D.nr) ∧
    (∃ k, colLoop qry1D ref1D (.ofInt 2) ref1D.nc 0 1 ref1D.nc 0 = .ok k ∧ k ≤ ref1D.nc ∧
      (∀ m, m < k →
        Double.lt (Double.abs (Double.sub (qry1D.elem 0 m) (ref1D.elem 1 m))) (.ofInt 2) =
          true) ∧
      (k < ref1D.nc →
        ¬ Double.lt (Double.abs (Double.sub (qry1D.elem 0 k) (ref1D.elem 1 k))) (.ofInt 2) =
          true) ∧
      (k = ref1D.nc ↔ ∀ c, c < ref1D.nc →
        Double.lt (Double.abs (Double.sub (qry1D.elem 0 c) (ref1D.elem 1 c))) (.ofInt 2) =
          true) ∧
      (∀ Q2 R2 : Matrix Double,
        (∀ m, m ≤ k → m < ref1D.nc →
          Q2.get 0 m = qry1D.get 0 m ∧ R2.get 1 m = ref1D.get 1 m) →
        colLoop Q2 R2 (.ofInt 2) ref1D.nc 0 1 ref1D.nc 0 = .ok k)) ∧
    colLoop qry1D ref1D (.ofInt 2) ref1D.nc 0 1 ref1D.nc 0 = .ok 0 ∧
    colLoop qry1D ref1D (.ofInt 2) ref1D.nc 0 2 ref1D.nc 0 = .ok 2 :=
  ⟨⟨rfl, by decide, by decide⟩,
    C13_early_exit ref1D qry1D (.ofInt 2) rfl 0 1 (by decide) (by decide), rfl, rfl⟩

/-- C14 (dimension zero): when both matrices have no column and the radius is positive,
the call succeeds, the column walk ends at once with its counter equal to `d = 0`, and
the list of every query row is `[1, 2, ..., n]`, all reference indices. -/
theorem C14_zero_dim {α : Type} [LinearOrderedRing α] (Ref Qry : Matrix α) (radius : α)
    (hd : Ref.nc = 0) (hq : Qry.nc = 0) (hr : 0 < radius) :
    (∃ ind, mexFunction Ref Qry radius = .ok ind ∧ ind.length = Qry.nr ∧
      ∀ j, j < Qry.nr → ind[j]? = some (List.range' 1 Ref.nr)) ∧
    (∀ p r, colLoop Qry Ref radius Ref.nc p r Ref.nc 0 = .ok Ref.nc) := by
  constructor
  · refine ⟨_, mexFunction_eq_exact Ref Qry radius (by omega) hr, by simp, ?_⟩
    intro j hj
    simp [hj, emitted_zero_dim Ref Qry radius hd j]
  · intro p r
    rw [hd]
    rfl

/-- Witness of C14: three reference points and two query points of dimension zero. -/
theorem C14_zero_dim_witness :
    (refZeroDim.nc = 0 ∧ qryZeroDim.nc = 0 ∧ (0 : ℤ) < 1) ∧
    ((∃ ind, mexFunction refZeroDim qryZeroDim 1 = .ok ind ∧ ind.length = qryZeroDim.nr ∧
      ∀ j, j < qryZeroDim.nr → ind[j]? = some (List.range' 1 refZeroDim.nr)) ∧
    (∀ p r, colLoop qryZeroDim refZeroDim 1 refZeroDim.nc p r refZeroDim.nc 0 =
      .ok refZeroDim.nc)) ∧
    mexFunction refZeroDim qryZeroDim 1 = .ok [[1, 2, 3], [1, 2, 3]] :=
  ⟨⟨rfl, rfl, by decide⟩, C14_zero_dim refZeroDim qryZeroDim 1 rfl rfl (by decide), rfl⟩

/-- Counterexample to C16 as stated: with the single point `+inf` as reference and as
query and radius `1`, the input is valid and query row 0 equals reference row 0, and yet
the list of row 0 is empty: `inf - inf` is NaN, which is not below the radius. -/
theorem C16_infinite_self_match_fails :
    matInf.nc = matInf.nc ∧ Double.lt Double.zero (.ofInt 1) = true ∧
    (∀ c, c < matInf.nc → matInf.elem 0 c = matInf.elem 0 c ∧
      Double.eq (matInf.elem 0 c) (matInf.elem 0 c) = true) ∧
    Double.sub (matInf.elem 0 0) (matInf.elem 0 0) = .nan ∧
    mexFunction matInf matInf (.ofInt 1) = .ok [[]] ∧
    ¬ (∃ ind l, mexFunction matInf matInf (.ofInt 1) = .ok ind ∧ ind[0]? = some l ∧
      0 + 1 ∈ l) := by
  have hrun : mexFunction matInf matInf (.ofInt 1) = .ok [[]] := rfl
  refine ⟨rfl, rfl, ?_, rfl, hrun, ?_⟩
  · intro c hc
    have hc0 : c = 0 := by
      have : matInf.nc = 1 := rfl
      omega
    subst hc0
    exact ⟨rfl, rfl⟩
  rintro ⟨ind, l, h1, h2, h3⟩
  rw [hrun] at h1
  cases h1
  simp at h2
  subst h2
  simp at h3

/-- C16 (self-match, amended): on valid input in double precision, when the coordinates
of query row `j` compare equal (`==`) to those of reference row `i` and are finite
(neither NaN nor an infinity), the index `i + 1` is in the list of `j`; in particular, with one matrix as
reference and as query, the list of every row `j` with finite coordinates contains
`j + 1` and is not empty. -/
theorem C16_self_match (Ref Qry : Matrix Double) (radius : Double)
    (hq : Qry.nc = Ref.nc) (hr : Double.lt Double.zero radius = true) :
    (∀ j i, j < Qry.nr → i < Ref.nr →
      (∀ c, c < Ref.nc →
        Double.eq (Qry.elem j c) (Ref.elem i c) = true ∧ (Qry.elem j c).isFinite = true) →
      ∃ ind l, mexFunction Ref Qry radius = .ok ind ∧ ind[j]? = some l ∧ i + 1 ∈ l) ∧
    (∀ j, j < Ref.nr → (∀ c, c < Ref.nc → (Ref.elem j c).isFinite = true) →
      ∃ ind l, mexFunction Ref Ref radius = .ok ind ∧ ind[j]? = some l ∧ j + 1 ∈ l ∧
        l ≠ []) := by
  constructor
  · intro j i hj hi hrow
    obtain ⟨ind, h1, _, h3⟩ := mexFunction_cell Ref Qry radius hq hr j hj
    exact ⟨ind, _, h1, h3, self_mem_emitted Ref Qry radius hr j i hi hrow⟩
  · intro j hj hfin
    obtain ⟨ind, h1, _, h3⟩ := mexFunction_cell Ref Ref radius rfl hr j hj
    have hmem := self_mem_emitted Ref Ref radius hr j j hj (fun c hc => ⟨Double.eq_self _ (hfin c hc), hfin c hc⟩)
    exact ⟨ind, _, h1, h3, hmem, List.ne_nil_of_mem hmem⟩

/-- Witness of C16 on scenario 1 in doubles: the query point `(0,0)` is reference row 0,
and the reference run against itself gives `[1, 3]`, `[2]`, `[1, 3]`. -/
theorem C16_self_match_witness :
    (qry1D.nc = ref1D.nc ∧ Double.lt Double.zero (.ofInt 2) = true ∧
      (∀ c, c < ref1D.nc →
        Double.eq (qry1D.elem 0 c) (ref1D.elem 0 c) = true ∧
          (qry1D.elem 0 c).isFinite = true)) ∧
    ((∀ j i, j < qry1D.nr → i < ref1D.nr →
      (∀ c, c < ref1D.nc →
        Double.eq (qry1D.elem j c) (ref1D.elem i c) = true ∧
          (qry1D.elem j c).isFinite = true) →
      ∃ ind l, mexFunction ref1D qry1D (.ofInt 2) = .ok ind ∧ ind[j]? = some l ∧
        i + 1 ∈ l) ∧
    (∀ j, j < ref1D.nr → (∀ c, c < ref1D.nc → (ref1D.elem j c).isFinite = true) →
      ∃ ind l, mexFunction ref1D ref1D (.ofInt 2) = .ok ind ∧ ind[j]? = some l ∧
        j + 1 ∈ l ∧ l ≠ [])) ∧
    mexFunction ref1D ref1D (.ofInt 2) = .ok [[1, 3], [2], [1, 3]] :=
  ⟨⟨rfl, rfl, by decide⟩, C16_self_match ref1D qry1D (.ofInt 2) rfl rfl, rfl⟩

end WithinLi
